import Mathlib

/-!
Verification development for the `as2-parser` front end.

This file gives a shallow embedding, in Lean 4, of the parts of the
repository needed to settle the frozen claims:

* `src/rs/src/types/syntax.rs` — the `SyntaxKind` enumeration, its
  predicates, the `u16` decoding, the CST casting layer
  (`trim_paren`, `find_infix_op`, `find_prefix_op`, `find_postfix_op`,
  `Expr::cast`, `Stmt::cast`, `Script::stmts`) and the string
  unescaper (`unescape_string`, `unescape_char`).
* `src/rs/src/lexer.rs` — the character-level tokenizer.
* `src/rs/src/types/owned.rs` and `src/rs/src/types/ast/ser.rs` — the
  owned AST backend and its JSON serialization adapters.

Modelling conventions:
* Rust `&str` / `Chars` iterators are modelled as `List Char`; an
  iterator's state is the list of characters not yet consumed, and
  `chars.clone()`-then-restore backtracking is modelled by returning
  the saved list.
* A Rust `panic!` / `unimplemented!` / `unreachable!` / `.unwrap()`
  failure is modelled as `none` (or a dedicated `panic` constructor);
  an ordinary `Option`/`Result` value keeps its own `Option`/sum layer.
* Byte offsets are modelled as character counts; all inputs are
  processed character by character in both the source and the model,
  so lengths stay consistent inside the model.
-/

namespace As2

set_option maxHeartbeats 3200000

/-- `SyntaxKind` from `types/syntax.rs`, all 79 variants in declaration
order (the `#[repr(u16)]` discriminant is the position in this order). -/
inductive SyntaxKind where
  | TokenError
  | TokenUnilineWhitespace
  | TokenMultilineWhitespace
  | TokenTrailingComment
  | TokenMultilineComment
  | TokenUnilineComment
  | TokenDelete
  | TokenFalse
  | TokenFor
  | TokenThrow
  | TokenThis
  | TokenTrue
  | TokenTry
  | TokenTypeof
  | TokenVar
  | TokenVoid
  | TokenIdent
  | TokenStrLit
  | TokenNumLit
  | TokenSemicolon
  | TokenColon
  | TokenComa
  | TokenOpenBrace
  | TokenCloseBrace
  | TokenOpenBracket
  | TokenCloseBracket
  | TokenOpenParen
  | TokenCloseParen
  | TokenEq
  | TokenEqEq
  | TokenEqEqEq
  | TokenNotEq
  | TokenNotEqEq
  | TokenTilde
  | TokenExcl
  | TokenQuestion
  | TokenLt
  | TokenLtLt
  | TokenLtEq
  | TokenGt
  | TokenGtGt
  | TokenGtGtGt
  | TokenGtEq
  | TokenPlus
  | TokenPlusPlus
  | TokenMinus
  | TokenMinusMinus
  | TokenPipe
  | TokenPipePipe
  | TokenAmp
  | TokenAmpAmp
  | TokenSlash
  | TokenPercent
  | TokenStar
  | TokenCaret
  | TokenDot
  | NodeBoolLit
  | NodeNumLit
  | NodeArrayLit
  | NodeObjectLit
  | NodeObjectLitProp
  | NodeStrLit
  | NodeIdent
  | NodeSeqExpr
  | NodeAssignExpr
  | NodeCondExpr
  | NodeInfixExpr
  | NodePrefixExpr
  | NodePostfixExpr
  | NodeParenExpr
  | NodeIdentMemberExpr
  | NodeComputedMemberExpr
  | NodeCallExpr
  | NodeArgs
  | NodeBreakStmt
  | NodeExprStmt
  | NodeVarStmt
  | NodeVarDecl
  | NodeScript
deriving DecidableEq, Repr, BEq

/-- All `SyntaxKind` variants, in declaration order: position `i` holds
the variant with discriminant `i`. -/
def SyntaxKind.all : List SyntaxKind :=
  [.TokenError, .TokenUnilineWhitespace, .TokenMultilineWhitespace,
   .TokenTrailingComment, .TokenMultilineComment, .TokenUnilineComment,
   .TokenDelete, .TokenFalse, .TokenFor, .TokenThrow, .TokenThis,
   .TokenTrue, .TokenTry, .TokenTypeof, .TokenVar, .TokenVoid,
   .TokenIdent, .TokenStrLit, .TokenNumLit, .TokenSemicolon,
   .TokenColon, .TokenComa, .TokenOpenBrace, .TokenCloseBrace,
   .TokenOpenBracket, .TokenCloseBracket, .TokenOpenParen,
   .TokenCloseParen, .TokenEq, .TokenEqEq, .TokenEqEqEq, .TokenNotEq,
   .TokenNotEqEq, .TokenTilde, .TokenExcl, .TokenQuestion, .TokenLt,
   .TokenLtLt, .TokenLtEq, .TokenGt, .TokenGtGt, .TokenGtGtGt,
   .TokenGtEq, .TokenPlus, .TokenPlusPlus, .TokenMinus,
   .TokenMinusMinus, .TokenPipe, .TokenPipePipe, .TokenAmp,
   .TokenAmpAmp, .TokenSlash, .TokenPercent, .TokenStar, .TokenCaret,
   .TokenDot, .NodeBoolLit, .NodeNumLit, .NodeArrayLit, .NodeObjectLit,
   .NodeObjectLitProp, .NodeStrLit, .NodeIdent, .NodeSeqExpr,
   .NodeAssignExpr, .NodeCondExpr, .NodeInfixExpr, .NodePrefixExpr,
   .NodePostfixExpr, .NodeParenExpr, .NodeIdentMemberExpr,
   .NodeComputedMemberExpr, .NodeCallExpr, .NodeArgs, .NodeBreakStmt,
   .NodeExprStmt, .NodeVarStmt, .NodeVarDecl, .NodeScript]

/-- `SyntaxKind::VARIANT_COUNT` (derived by the `variant_count` crate;
the repository's own test asserts it equals 79). -/
def SyntaxKind.VARIANT_COUNT : Nat := 79

/-- `SyntaxKind::into_u16` (`self as u16`): the declaration-order
discriminant of the variant. -/
def SyntaxKind.into_u16 (k : SyntaxKind) : Nat :=
  List.indexOf k SyntaxKind.all

/-- `TryFrom<u16> for SyntaxKind`: values below `VARIANT_COUNT` are
transmuted to the variant with that discriminant, others are rejected. -/
def SyntaxKind.from_u16 (v : Nat) : Option SyntaxKind :=
  if v < SyntaxKind.VARIANT_COUNT then List.get? SyntaxKind.all v else none

/-- `SyntaxKind::is_stmt` -/
def SyntaxKind.is_stmt : SyntaxKind → Bool
  | .NodeExprStmt | .NodeVarStmt => true
  | _ => false

/-- `SyntaxKind::is_expr` -/
def SyntaxKind.is_expr : SyntaxKind → Bool
  | .NodeArrayLit | .NodeAssignExpr | .NodeIdent | .NodeInfixExpr
  | .NodeBoolLit | .NodeCallExpr | .NodeNumLit | .NodeObjectLit
  | .NodeParenExpr | .NodePostfixExpr | .NodePrefixExpr | .NodeSeqExpr
  | .NodeStrLit => true
  | _ => false

/-- `SyntaxKind::is_assign_op` -/
def SyntaxKind.is_assign_op : SyntaxKind → Bool
  | .TokenEq => true
  | _ => false

/-- `SyntaxKind::is_logical_op` -/
def SyntaxKind.is_logical_op : SyntaxKind → Bool
  | .TokenPipePipe | .TokenAmpAmp => true
  | _ => false

/-- `SyntaxKind::is_unary_op` -/
def SyntaxKind.is_unary_op : SyntaxKind → Bool
  | .TokenExcl | .TokenMinus | .TokenPlus => true
  | _ => false

/-- `SyntaxKind::is_prefix_update_op` -/
def SyntaxKind.is_prefix_update_op : SyntaxKind → Bool
  | .TokenDelete | .TokenMinusMinus | .TokenPlusPlus => true
  | _ => false

/-- `SyntaxKind::is_postfix_update_op` -/
def SyntaxKind.is_postfix_update_op : SyntaxKind → Bool
  | .TokenMinusMinus | .TokenPlusPlus => true
  | _ => false

/-- `SyntaxKind::is_bin_op` -/
def SyntaxKind.is_bin_op : SyntaxKind → Bool
  | .TokenAmp | .TokenCaret | .TokenEqEq | .TokenEqEqEq | .TokenLt
  | .TokenLtLt | .TokenMinus | .TokenPipe | .TokenPlus | .TokenSlash
  | .TokenStar => true
  | _ => false

/-- `SyntaxKind::is_prefix_op` -/
def SyntaxKind.is_prefix_op (k : SyntaxKind) : Bool :=
  k.is_unary_op || k.is_prefix_update_op

/-- `SyntaxKind::is_infix_op` -/
def SyntaxKind.is_infix_op (k : SyntaxKind) : Bool :=
  k.is_assign_op || k.is_bin_op || k.is_logical_op

/-! ## Lexer (`lexer.rs`)

The `Chars` iterator is a `List Char` of the characters not yet
consumed; every helper returns the iterator state it leaves behind.
-/

/-- `LexerToken` from `lexer.rs` (text as a character list). -/
structure LexerToken where
  kind : SyntaxKind
  text : List Char
deriving DecidableEq, Repr

/-- `is_whitespace` from `lexer.rs`. -/
def is_whitespace (c : Char) : Bool :=
  c = '\n' || c = '\r' || c = ' '

/-- `is_line_terminator_sequence_start` from `lexer.rs`. -/
def is_lts_start (c : Char) : Bool :=
  c = '\n' || c = '\r'

/-- `is_id_start` from `lexer.rs`. -/
def is_id_start (c : Char) : Bool :=
  ('a' ≤ c && c ≤ 'z') || ('A' ≤ c && c ≤ 'Z') || c = '$' || c = '_'

/-- `is_id_continue` from `lexer.rs`. -/
def is_id_continue (c : Char) : Bool :=
  ('a' ≤ c && c ≤ 'z') || ('A' ≤ c && c ≤ 'Z') || ('0' ≤ c && c ≤ '9')
    || c = '$' || c = '_'

/-- `end_line_terminator_sequence`: after `\r`, greedily consume an
optional `\n` (other starters consume nothing more). Returns the
remaining characters. -/
def end_lts (first : Char) (cs : List Char) : List Char :=
  if first = '\r' then
    match cs with
    | '\n' :: rest => rest
    | _ => cs
  else cs

/-- `end_trailing_comment`: consume until (and including) the next line
terminator sequence, or end of input; the kind is always
`TokenTrailingComment`. Returns the remaining characters. -/
def end_trailing_comment : List Char → List Char
  | [] => []
  | c :: rest =>
    if is_lts_start c then end_lts c rest else end_trailing_comment rest

/-- `end_double_quoted_string`: consume until an unescaped closing `"`;
a backslash skips the next character; end of input yields `TokenError`. -/
def end_dq_string : List Char → SyntaxKind × List Char
  | [] => (.TokenError, [])
  | '"' :: rest => (.TokenStrLit, rest)
  | '\\' :: rest =>
    match rest with
    | [] => (.TokenError, [])
    | _ :: rest2 => end_dq_string rest2
  | _ :: rest => end_dq_string rest

/-- `end_id`: consume a maximal run of identifier-continue characters
(the kind at every call site is `TokenIdent`). Returns the remaining
characters; a non-continue character is restored (`old_chars`). -/
def end_id : List Char → List Char
  | [] => []
  | c :: rest => if is_id_continue c then end_id rest else c :: rest

/-- The whitespace loop of `end_whitespace`. The line-terminator cases
(`is_line_terminator_sequence_start` followed by
`end_line_terminator_sequence`) are written as explicit patterns so
that the recursion is structural; the consumed characters are the same
as in the source. -/
def ws_loop : List Char → Bool → Bool × List Char
  | [], multiline => (multiline, [])
  | '\n' :: rest, _ => ws_loop rest true
  | '\r' :: '\n' :: rest2, _ => ws_loop rest2 true
  | '\r' :: rest, _ => ws_loop rest true
  | c :: rest, multiline =>
    if is_whitespace c then ws_loop rest multiline
    else (multiline, c :: rest)

/-- `end_whitespace`: consume a maximal whitespace run; the kind is
`TokenMultilineWhitespace` iff a line terminator was seen. -/
def end_whitespace (first : Char) (cs : List Char) : SyntaxKind × List Char :=
  let start : Bool × List Char :=
    if is_lts_start first then (true, end_lts first cs) else (false, cs)
  let res := ws_loop start.2 start.1
  ((if res.1 then SyntaxKind.TokenMultilineWhitespace
    else SyntaxKind.TokenUnilineWhitespace), res.2)

/-- `end_id_or_keyword`: the hand-written backtracking scanner for
identifiers and keywords. Only words starting with `t` are
implemented; any other start hits `unimplemented!()`, modelled as
`none`. Each nested `chars.next()` is a list pattern match; the
`old_chars` clone-and-restore after a complete keyword is modelled by
returning the saved list. Note that on the `_ => TokenIdent` arms the
looked-at character stays consumed, exactly as in the source. -/
def end_id_or_keyword (first : Char) (cs : List Char) :
    Option (SyntaxKind × List Char) :=
  if first = 't' then
    some (match cs with
    | [] => (.TokenIdent, [])
    | c1 :: cs1 =>
      if c1 = 'h' then
        match cs1 with
        | [] => (.TokenIdent, [])
        | c2 :: cs2 =>
          if c2 = 'i' then
            match cs2 with
            | [] => (.TokenIdent, [])
            | c3 :: cs3 =>
              if c3 = 's' then
                match cs3 with
                | [] => (.TokenThis, [])
                | c4 :: cs4 =>
                  if is_id_continue c4 then (.TokenIdent, end_id cs4)
                  else (.TokenThis, c4 :: cs4)
              else if is_id_continue c3 then (.TokenIdent, end_id cs3)
              else (.TokenIdent, cs3)
          else if c2 = 'r' then
            match cs2 with
            | [] => (.TokenIdent, [])
            | c3 :: cs3 =>
              if c3 = 'o' then
                match cs3 with
                | [] => (.TokenIdent, [])
                | c4 :: cs4 =>
                  if c4 = 'w' then
                    match cs4 with
                    | [] => (.TokenThrow, [])
                    | c5 :: cs5 =>
                      if is_id_continue c5 then (.TokenIdent, end_id cs5)
                      else (.TokenThrow, c5 :: cs5)
                  else if is_id_continue c4 then (.TokenIdent, end_id cs4)
                  else (.TokenIdent, cs4)
              else if is_id_continue c3 then (.TokenIdent, end_id cs3)
              else (.TokenIdent, cs3)
          else if is_id_continue c2 then (.TokenIdent, end_id cs2)
          else (.TokenIdent, cs2)
      else if c1 = 'r' then
        match cs1 with
        | [] => (.TokenIdent, [])
        | c2 :: cs2 =>
          if c2 = 'u' then
            match cs2 with
            | [] => (.TokenIdent, [])
            | c3 :: cs3 =>
              if c3 = 'e' then
                match cs3 with
                | [] => (.TokenTrue, [])
                | c4 :: cs4 =>
                  if is_id_continue c4 then (.TokenIdent, end_id cs4)
                  else (.TokenTrue, c4 :: cs4)
              else if is_id_continue c3 then (.TokenIdent, end_id cs3)
              else (.TokenIdent, cs3)
          else if c2 = 'y' then
            match cs2 with
            | [] => (.TokenTry, [])
            | c3 :: cs3 =>
              if is_id_continue c3 then (.TokenIdent, end_id cs3)
              else (.TokenTry, c3 :: cs3)
          else if is_id_continue c2 then (.TokenIdent, end_id cs2)
          else (.TokenIdent, cs2)
      else if is_id_continue c1 then (.TokenIdent, end_id cs1)
      else (.TokenIdent, cs1))
  else none

/-- Result of one `next_token` call: input exhausted, a Rust panic
(`unimplemented!`), or a token. -/
inductive LexStep where
  | exhausted
  | panic
  | tok (t : LexerToken)
deriving DecidableEq, Repr

/-- `next_token` from `lexer.rs`: dispatch on the first character; the
token text is the consumed prefix (`input[..input_len - remaining]`).
`unimplemented!()` arms are the `none` cases of the dispatch. -/
def next_token (input : List Char) : LexStep :=
  match input with
  | [] => .exhausted
  | first :: cs =>
    let res : Option (SyntaxKind × List Char) :=
      if first = '/' then
        match cs with
        | '/' :: cs2 => some (.TokenTrailingComment, end_trailing_comment cs2)
        | _ => none
      else if is_id_start first then end_id_or_keyword first cs
      else if is_whitespace first then some (end_whitespace first cs)
      else if first = ';' then some (.TokenSemicolon, cs)
      else if first = '(' then some (.TokenOpenParen, cs)
      else if first = ')' then some (.TokenCloseParen, cs)
      else if first = '"' then some (end_dq_string cs)
      else none
    match res with
    | none => .panic
    | some (kind, rest) =>
      .tok ⟨kind, List.take (input.length - rest.length) input⟩

/-- The `Lexer` iterator driven to completion (`lex`), with explicit
fuel. After each token the input advances by the token's text length.
`none` models a panic during the scan; the fuel (one more than the
input length) never runs out because every token consumes at least one
character. -/
def lex_fuel : Nat → List Char → Option (List LexerToken)
  | 0, _ => none
  | fuel + 1, input =>
    match next_token input with
    | .exhausted => some []
    | .panic => none
    | .tok t =>
      match lex_fuel fuel (List.drop t.text.length input) with
      | none => none
      | some toks => some (t :: toks)

/-- `lex` from `lexer.rs`: collect all tokens; `none` models a panic. -/
def lex (input : List Char) : Option (List LexerToken) :=
  lex_fuel (input.length + 1) input

/-- Concatenation of the `text` of a token list. -/
def texts_concat (toks : List LexerToken) : List Char :=
  (toks.map LexerToken.text).flatten

/-! ## Concrete syntax tree and the casting layer (`types/syntax.rs`)

A rowan `SyntaxSymbol` (`NodeOrToken<SyntaxNode, SyntaxToken>`) is
modelled as one inductive: a node holds a kind and its ordered child
symbols, a token holds a kind and its text. The typed wrappers
(`Expr`, `Stmt`, `LogicalExpr`, …) are thin `{syntax}` records in the
source; the model passes the underlying element directly.
-/

/-- A CST symbol: node (kind + ordered children, tokens included) or
token (kind + text). -/
inductive SElem where
  | node (kind : SyntaxKind) (children : List SElem)
  | token (kind : SyntaxKind) (text : List Char)

/-- `kind()` of a symbol. -/
def SElem.kindOf : SElem → SyntaxKind
  | .node k _ => k
  | .token k _ => k

/-- `children_with_tokens()`: all direct child symbols (empty for a
token). -/
def SElem.childSymbols : SElem → List SElem
  | .node _ ch => ch
  | .token _ _ => []

/-- Whether a symbol is a node. -/
def SElem.isNode : SElem → Bool
  | .node _ _ => true
  | .token _ _ => false

/-- `children()`: the direct child nodes, in order, tokens skipped. -/
def SElem.childNodes (e : SElem) : List SElem :=
  e.childSymbols.filter SElem.isNode

/-- First direct child node of a child list (`first_child()` before the
`unwrap`). -/
def firstChildNode : List SElem → Option SElem
  | [] => none
  | .node k ch :: _ => some (.node k ch)
  | .token _ _ :: rest => firstChildNode rest

mutual
/-- `trim_paren`: while the node is a `NodeParenExpr`, descend to its
first child node. The `assert!(node.kind().is_expr())` failure and the
`first_child().unwrap()` panic are modelled as `none`. -/
def trimParen : SElem → Option SElem
  | .token k t =>
    if k.is_expr then
      if k = .NodeParenExpr then none else some (.token k t)
    else none
  | .node k ch =>
    if k.is_expr then
      if k = .NodeParenExpr then trimParenFirst ch else some (.node k ch)
    else none

/-- Descend into the first child node of a `NodeParenExpr` (the loop
body of `trim_paren`); `none` when there is no child node
(`first_child().unwrap()` panics). -/
def trimParenFirst : List SElem → Option SElem
  | [] => none
  | .node k ch :: _ => trimParen (.node k ch)
  | .token _ _ :: rest => trimParenFirst rest
end

/-- `find_infix_op`: scan the direct child symbols in order and return
the first token whose kind `is_infix_op`, but only after at least one
child node (`found_left`) has been seen; `none` models the
`panic!("NoInfixOp")`. -/
def findInfixOp (foundLeft : Bool) : List SElem → Option (SyntaxKind × List Char)
  | [] => none
  | .token k t :: rest =>
    if foundLeft && k.is_infix_op then some (k, t)
    else findInfixOp foundLeft rest
  | .node _ _ :: rest => findInfixOp true rest

/-- `find_prefix_op`: first token whose kind `is_prefix_op`; `none`
models `panic!("NoPrefixOp")`. -/
def findPrefixOpTok : List SElem → Option (SyntaxKind × List Char)
  | [] => none
  | .token k t :: rest =>
    if k.is_prefix_op then some (k, t) else findPrefixOpTok rest
  | .node _ _ :: rest => findPrefixOpTok rest

/-- `find_postfix_op`: first token whose kind `is_postfix_update_op`;
`none` models `panic!("NoPostfixOp")`. -/
def findPostfixOpTok : List SElem → Option (SyntaxKind × List Char)
  | [] => none
  | .token k t :: rest =>
    if k.is_postfix_update_op then some (k, t) else findPostfixOpTok rest
  | .node _ _ :: rest => findPostfixOpTok rest

/-- `ExprCast` from `ast/traits.rs`, specialised to the CST backend:
each arm carries the (untrimmed) `self.syntax` element the wrapper
would hold. -/
inductive ExprCastC where
  | assign (e : SElem)
  | boolLit (e : SElem)
  | bin (e : SElem)
  | call (e : SElem)
  | ident (e : SElem)
  | error (e : SElem)
  | logical (e : SElem)
  | numLit (e : SElem)
  | seq (e : SElem)
  | strLit (e : SElem)
  | unary (e : SElem)
  | update (e : SElem)

/-- The arm of an `ExprCast` value. -/
inductive ExprArm where
  | assign | boolLit | bin | call | ident | error | logical | numLit
  | seq | strLit | unary | update
deriving DecidableEq, Repr

/-- Project an `ExprCast` value to its arm. -/
def ExprCastC.arm : ExprCastC → ExprArm
  | .assign _ => .assign
  | .boolLit _ => .boolLit
  | .bin _ => .bin
  | .call _ => .call
  | .ident _ => .ident
  | .error _ => .error
  | .logical _ => .logical
  | .numLit _ => .numLit
  | .seq _ => .seq
  | .strLit _ => .strLit
  | .unary _ => .unary
  | .update _ => .update

/-- `Expr::cast` for the CST backend: trim parens, then branch on the
inner kind; `NodeInfixExpr` is disambiguated by `find_infix_op`,
`NodePostfixExpr`/`NodePrefixExpr` by `find_postfix_op`/`find_prefix_op`;
unmatched kinds fall to the `Error` arm. `none` models the panics
(`trim_paren` asserts, the finder panics, `unreachable!()` and
`unimplemented!()`). -/
def exprCast (e : SElem) : Option ExprCastC :=
  match trimParen e with
  | none => none
  | some inner =>
    match inner.kindOf with
    | .NodeAssignExpr => some (.assign e)
    | .NodeBoolLit => some (.boolLit e)
    | .NodeCallExpr => some (.call e)
    | .NodeIdent => some (.ident e)
    | .NodeInfixExpr =>
      match findInfixOp false inner.childSymbols with
      | none => none
      | some (k, _) =>
        if k.is_logical_op then some (.logical e)
        else if k.is_bin_op then some (.bin e)
        else none
    | .NodeNumLit => some (.numLit e)
    | .NodePostfixExpr =>
      match findPostfixOpTok inner.childSymbols with
      | none => none
      | some (k, _) =>
        if k.is_postfix_update_op then some (.update e) else none
    | .NodePrefixExpr =>
      match findPrefixOpTok inner.childSymbols with
      | none => none
      | some (k, _) =>
        if k.is_unary_op then some (.unary e)
        else if k.is_prefix_update_op then some (.update e)
        else none
    | .NodeSeqExpr => some (.seq e)
    | .NodeStrLit => some (.strLit e)
    | _ => some (.error e)

/-- `LogicalOp` from `ast/traits.rs`. -/
inductive LogicalOp where
  | and
  | or
deriving DecidableEq, Repr

/-- `BinOp` from `ast/traits.rs`. -/
inductive BinOp where
  | add | bitAnd | bitOr | bitXor | divide | equals | greater
  | instanceOf | legacyAdd | leftShift | less | multiply | notEquals
  | notStrictEquals | remainder | signedRightShift | subtract
  | strictEquals | unsignedRightShift
deriving DecidableEq, Repr

/-- `LogicalExpr::op` for the CST backend: find the infix operator among
the wrapper's own child symbols (`self.syntax`, not trimmed) and map it;
the source maps `TokenAmpAmp` to `Or` and `TokenPipePipe` to `And`.
`none` models the `unreachable!()` and the finder panic. -/
def logicalExprOp (e : SElem) : Option LogicalOp :=
  match findInfixOp false e.childSymbols with
  | none => none
  | some (k, _) =>
    match k with
    | .TokenAmpAmp => some .or
    | .TokenPipePipe => some .and
    | _ => none

/-- `BinExpr::op` for the CST backend: find the infix operator among the
wrapper's own child symbols and map it through the fixed table; `none`
models the `unimplemented!()` arm and the finder panic. -/
def binExprOp (e : SElem) : Option BinOp :=
  match findInfixOp false e.childSymbols with
  | none => none
  | some (k, _) =>
    match k with
    | .TokenPlus => some .add
    | .TokenAmp => some .bitAnd
    | .TokenPipe => some .bitOr
    | .TokenCaret => some .bitXor
    | .TokenEqEq => some .equals
    | .TokenLt => some .less
    | .TokenLtLt => some .leftShift
    | .TokenStar => some .multiply
    | .TokenEqEqEq => some .strictEquals
    | _ => none

/-- `StmtCast` specialised to the CST backend (arms as used by
`syntax.rs`/`ser.rs`; the var-statement arm is called `VarStmt` there). -/
inductive StmtCastC where
  | breakStmt (e : SElem)
  | errorStmt (e : SElem)
  | traceStmt (e : SElem)
  | exprStmt (e : SElem)
  | varStmt (e : SElem)

/-- Whether a `StmtCast` value is the Break or the Trace arm. -/
def StmtCastC.isBreakOrTrace : StmtCastC → Bool
  | .breakStmt _ => true
  | .traceStmt _ => true
  | _ => false

/-- `Stmt::cast` for the CST backend: `NodeExprStmt` and `NodeVarStmt`
map to their arms, everything else to `ErrorStmt`. -/
def stmtCast (e : SElem) : StmtCastC :=
  match e.kindOf with
  | .NodeExprStmt => .exprStmt e
  | .NodeVarStmt => .varStmt e
  | _ => .errorStmt e

/-- `TryFrom<SyntaxNode> for Stmt`: succeeds iff the kind `is_stmt`. -/
def stmtTryFrom (e : SElem) : Option SElem :=
  if e.kindOf.is_stmt then some e else none

/-- The `ScriptStmts` iterator loop: yield the children on which
`Stmt::try_from` succeeds, skipping the rest. -/
def scriptStmtsLoop : List SElem → List SElem
  | [] => []
  | c :: rest =>
    match stmtTryFrom c with
    | some s => s :: scriptStmtsLoop rest
    | none => scriptStmtsLoop rest

/-- `Script::stmts` for the CST backend: run the `ScriptStmts` loop over
the direct child nodes. -/
def scriptStmts (e : SElem) : List SElem :=
  scriptStmtsLoop e.childNodes

/-! ## String literal unescaper (`types/syntax.rs`) -/

/-- `QuoteKind` from `types/syntax.rs`. -/
inductive QuoteKind where
  | single
  | double
deriving DecidableEq, Repr

/-- `UnescapeError` from `types/syntax.rs`. -/
inductive UnescapeError where
  | loneSlash
  | escapeOnlyChar
deriving DecidableEq, Repr

/-- Outcome of `unescape_char` for one source character: the unescaped
character, a reported error, or a panic (the `unimplemented!` arms for
`\x`, `\u`, `\0` and unknown escape letters). -/
inductive UnescapeCharResult where
  | ok (c : Char)
  | err (e : UnescapeError)
  | panic
deriving DecidableEq, Repr

/-- `unescape_char`: unescape one character, consuming more input after
a backslash. Returns the result and the remaining characters. -/
def unescapeChar (firstChar : Char) (cs : List Char) (quotes : QuoteKind) :
    UnescapeCharResult × List Char :=
  if firstChar = '"' ∧ quotes = QuoteKind.double then
    (.err .escapeOnlyChar, cs)
  else if firstChar = '\'' ∧ quotes = QuoteKind.single then
    (.err .escapeOnlyChar, cs)
  else if firstChar = '\\' then
    match cs with
    | [] => (.err .loneSlash, [])
    | c :: rest =>
      if c = '\'' then (.ok '\'', rest)
      else if c = '"' then (.ok '"', rest)
      else if c = '\\' then (.ok '\\', rest)
      else if c = 'b' then (.ok '\x08', rest)
      else if c = 'f' then (.ok '\x0c', rest)
      else if c = 'n' then (.ok '\n', rest)
      else if c = 'r' then (.ok '\r', rest)
      else if c = 't' then (.ok '\t', rest)
      else if c = 'v' then (.ok '\x0b', rest)
      else (.panic, rest)
  else (.ok firstChar, cs)

/-- Whether a per-character result is a reported error. -/
def UnescapeCharResult.isErr : UnescapeCharResult → Bool
  | .err _ => true
  | _ => false

/-- Whether a per-character result is a panic. -/
def UnescapeCharResult.isPanic : UnescapeCharResult → Bool
  | .panic => true
  | _ => false

/-- `unescape_string_content`: walk the content character by character,
collecting the per-character results in callback order. The byte
ranges passed to the callback are dropped: `unescape_string`, the only
caller modelled here, ignores them. The case split on the leading
backslash mirrors how much input `unescape_char` consumes, so that the
recursion is structural; each step's result is exactly
`unescapeChar firstChar cs quotes`. -/
def unescapeWalk (quotes : QuoteKind) : List Char → List UnescapeCharResult
  | [] => []
  | ['\\'] => [(unescapeChar '\\' [] quotes).1]
  | '\\' :: c :: rest =>
    (unescapeChar '\\' (c :: rest) quotes).1 :: unescapeWalk quotes rest
  | firstChar :: cs =>
    (unescapeChar firstChar cs quotes).1 :: unescapeWalk quotes cs

/-- `find_quoted_content`: identify the quote kind from the first and
last characters and return the content between them; inputs of fewer
than two characters, or with mismatched delimiters, have no quoted
content. -/
def findQuotedContent : List Char → Option (QuoteKind × List Char)
  | [] => none
  | [_] => none
  | first :: rest =>
    match rest.getLast? with
    | none => none
    | some lastChar =>
      if first = '"' ∧ lastChar = '"' then
        some (QuoteKind.double, rest.dropLast)
      else if first = '\'' ∧ lastChar = '\'' then
        some (QuoteKind.single, rest.dropLast)
      else none

/-- `unescape_string`: `none` models a panic during the walk; `some
none` is Rust's `None` (no quoted content, or some character reported
an error); `some (some s)` is `Some(s)`. -/
def unescapeString (quoted : List Char) : Option (Option (List Char)) :=
  match findQuotedContent quoted with
  | none => some none
  | some (quotes, content) =>
    let results := unescapeWalk quotes content
    if results.any UnescapeCharResult.isPanic then none
    else if results.any UnescapeCharResult.isErr then some none
    else some (some (results.filterMap (fun r =>
      match r with
      | .ok c => some c
      | _ => none)))

/-- Whether `unescape_string` yields a string. -/
def yieldsString (r : Option (Option (List Char))) : Bool :=
  match r with
  | some (some _) => true
  | _ => false

/-! ## Owned AST backend (`types/owned.rs`) and JSON serialization
(`types/ast/ser.rs`)

`serde_json::to_string` is modelled up to a JSON document tree whose
object fields are listed in emission order (which is what
`serde_json` writes); a panic during serialization is `none`.
-/

/-- A JSON document. -/
inductive Json where
  | str (s : String)
  | bool (b : Bool)
  | arr (items : List Json)
  | obj (fields : List (String × Json))

/-- `Pat` from `types/owned.rs`. -/
inductive OwnedPat where
  | memberPat
  | identPat (name : String)
  | syntaxError

/-- `Expr` from `types/owned.rs` (payloads beyond structure are kept
only where the claims need them). -/
inductive OwnedExpr where
  | assign (value : OwnedExpr)
  | bin (left : OwnedExpr) (right : OwnedExpr)
  | error
  | logical (left : OwnedExpr) (right : OwnedExpr)
  | seq (exprs : List OwnedExpr)
  | strLit (value : String)

/-- `Stmt` from `types/owned.rs`: `Break`, `Error`, `Expr`, `Trace`. -/
inductive OwnedStmt where
  | breakStmt
  | errorStmt
  | exprStmt (expr : OwnedExpr)
  | traceStmt (value : OwnedExpr)

/-- `Script` from `types/owned.rs`. -/
structure OwnedScript where
  stmts : List OwnedStmt

/-- `SerializeBreakStmt`: the record with the single field
`"type": "BreakStmt"`. -/
def serializeBreakStmt : Json :=
  .obj [("type", .str "BreakStmt")]

/-- `SerializeErrorStmt`. -/
def serializeErrorStmt : Json :=
  .obj [("type", .str "ErrorStmt")]

mutual
/-- `SerializeExpr` for the owned backend: `Expr::cast` handles only the
`Seq` and `StrLit` arms (`types/owned.rs`), everything else hits
`unimplemented!()`, modelled as `none`. -/
def serializeOwnedExpr : OwnedExpr → Option Json
  | .seq exprs =>
    match serializeOwnedExprList exprs with
    | none => none
    | some items => some (.obj [("type", .str "SeqExpr"), ("exprs", .arr items)])
  | .strLit v => some (.obj [("type", .str "StrLit"), ("value", .str v)])
  | _ => none

/-- Serialize a list of owned expressions in order, propagating panics. -/
def serializeOwnedExprList : List OwnedExpr → Option (List Json)
  | [] => some []
  | e :: rest =>
    match serializeOwnedExpr e with
    | none => none
    | some j =>
      match serializeOwnedExprList rest with
      | none => none
      | some js => some (j :: js)
end

/-- `SerializeStmt`: dispatch on `Stmt::cast`. The owned backend casts
`Trace` statements to the `Trace` arm, which `SerializeStmt` does not
handle (`_ => unimplemented!()`), modelled as `none`. -/
def serializeOwnedStmt : OwnedStmt → Option Json
  | .breakStmt => some serializeBreakStmt
  | .errorStmt => some serializeErrorStmt
  | .exprStmt e =>
    match serializeOwnedExpr e with
    | none => none
    | some j => some (.obj [("type", .str "ExprStmt"), ("expr", j)])
  | .traceStmt _ => none

/-- Serialize the statement list of a script in order. -/
def serializeOwnedStmtList : List OwnedStmt → Option (List Json)
  | [] => some []
  | s :: rest =>
    match serializeOwnedStmt s with
    | none => none
    | some j =>
      match serializeOwnedStmtList rest with
      | none => none
      | some js => some (j :: js)

/-- `SerializeScript`: a two-field record, `"type": "Script"` first and
then `"body"` holding the serialized statement list. -/
def serializeOwnedScript (s : OwnedScript) : Option Json :=
  match serializeOwnedStmtList s.stmts with
  | none => none
  | some body => some (.obj [("type", .str "Script"), ("body", .arr body)])

/-! ## Statement-level observers and fixtures -/

/-- Kind of the token returned by a lexer step, if any. -/
def LexStep.tokKind : LexStep → Option SyntaxKind
  | .tok t => some t.kind
  | _ => none

/-- Whether `Expr::cast` succeeds (no panic) with a non-`Error` arm. -/
def castsToNonError (e : SElem) : Bool :=
  match exprCast e with
  | some c => !(c.arm == ExprArm.error)
  | none => false

/-- Top-level field names of a JSON object (emission order). -/
def Json.fieldNames : Json → List String
  | .obj fields => fields.map Prod.fst
  | _ => []

/-- Well-formed expression nodes: the node kinds `is_expr` accepts, with
the shape invariants the external parser guarantees — an infix node
exposes a binary or logical operator token after its left operand, a
prefix/postfix node exposes its operator token, and a paren node wraps
a well-formed expression as its first child node. -/
inductive WFExpr : SElem → Prop where
  | boolLit (ch : List SElem) : WFExpr (.node .NodeBoolLit ch)
  | numLit (ch : List SElem) : WFExpr (.node .NodeNumLit ch)
  | arrayLit (ch : List SElem) : WFExpr (.node .NodeArrayLit ch)
  | objectLit (ch : List SElem) : WFExpr (.node .NodeObjectLit ch)
  | strLit (ch : List SElem) : WFExpr (.node .NodeStrLit ch)
  | ident (ch : List SElem) : WFExpr (.node .NodeIdent ch)
  | seq (ch : List SElem) : WFExpr (.node .NodeSeqExpr ch)
  | assign (ch : List SElem) : WFExpr (.node .NodeAssignExpr ch)
  | call (ch : List SElem) : WFExpr (.node .NodeCallExpr ch)
  | infixE (ch : List SElem) (k : SyntaxKind) (t : List Char) :
      findInfixOp false ch = some (k, t) →
      (k.is_logical_op || k.is_bin_op) = true →
      WFExpr (.node .NodeInfixExpr ch)
  | prefixE (ch : List SElem) (k : SyntaxKind) (t : List Char) :
      findPrefixOpTok ch = some (k, t) →
      WFExpr (.node .NodePrefixExpr ch)
  | postfixE (ch : List SElem) (k : SyntaxKind) (t : List Char) :
      findPostfixOpTok ch = some (k, t) →
      WFExpr (.node .NodePostfixExpr ch)
  | paren (ch : List SElem) (inner : SElem) :
      firstChildNode ch = some inner →
      WFExpr inner →
      WFExpr (.node .NodeParenExpr ch)

/-- Fixture: the identifier expression `a`. -/
def cstIdentA : SElem := .node .NodeIdent [.token .TokenIdent ['a']]

/-- Fixture: the identifier expression `b`. -/
def cstIdentB : SElem := .node .NodeIdent [.token .TokenIdent ['b']]

/-- Fixture: `(a)` — the identifier wrapped in a paren expression. -/
def cstParenA : SElem :=
  .node .NodeParenExpr
    [.token .TokenOpenParen ['('], cstIdentA, .token .TokenCloseParen [')']]

/-- Fixture: `(b)`. -/
def cstParenB : SElem :=
  .node .NodeParenExpr
    [.token .TokenOpenParen ['('], cstIdentB, .token .TokenCloseParen [')']]

/-- Fixture: the infix node `a && b`. -/
def cstInfixAnd : SElem :=
  .node .NodeInfixExpr [cstIdentA, .token .TokenAmpAmp ['&', '&'], cstIdentB]

/-- Fixture: the infix node `a + b`. -/
def cstInfixPlus : SElem :=
  .node .NodeInfixExpr [cstIdentA, .token .TokenPlus ['+'], cstIdentB]

/-- Fixture: `(a) && b` — left operand parenthesized. -/
def cstInfixAndPL : SElem :=
  .node .NodeInfixExpr [cstParenA, .token .TokenAmpAmp ['&', '&'], cstIdentB]

/-- Fixture: `a && (b)` — right operand parenthesized. -/
def cstInfixAndPR : SElem :=
  .node .NodeInfixExpr [cstIdentA, .token .TokenAmpAmp ['&', '&'], cstParenB]

/-- Fixture: `(a) + b`. -/
def cstInfixPlusPL : SElem :=
  .node .NodeInfixExpr [cstParenA, .token .TokenPlus ['+'], cstIdentB]

/-- Fixture: `a + (b)`. -/
def cstInfixPlusPR : SElem :=
  .node .NodeInfixExpr [cstIdentA, .token .TokenPlus ['+'], cstParenB]

/-- Fixture: an infix node whose first symbol is an operator-like token
appearing before any child node (`&&` first, then the two operands
around `+`). -/
def cstInfixOpFirst : SElem :=
  .node .NodeInfixExpr
    [.token .TokenAmpAmp ['&', '&'], cstIdentA, .token .TokenPlus ['+'], cstIdentB]

/-- Fixture: a well-formed array literal `[]`. -/
def cstArrayLit : SElem :=
  .node .NodeArrayLit
    [.token .TokenOpenBracket ['['], .token .TokenCloseBracket [']']]

/-- Fixture: a well-formed boolean literal `true`. -/
def cstBoolLit : SElem :=
  .node .NodeBoolLit [.token .TokenTrue ['t', 'r', 'u', 'e']]

/-- Fixture: a script whose direct children are a break statement, an
expression statement and a var statement. -/
def cstScriptSample : SElem :=
  .node .NodeScript
    [.node .NodeBreakStmt [.token .TokenSemicolon [';']],
     .node .NodeExprStmt [cstIdentA, .token .TokenSemicolon [';']],
     .node .NodeVarStmt [.node .NodeVarDecl [cstIdentB]]]

/-! ## Helper lemmas -/

/-- A consumed prefix followed by dropping its length restores the list. -/
theorem take_concat_drop_length (xs : List Char) (n : Nat) :
    List.take n xs ++ List.drop (List.take n xs).length xs = xs := by
  rw [List.length_take]
  rcases Nat.le_total n xs.length with h | h
  · rw [Nat.min_eq_left h, List.take_append_drop]
  · rw [Nat.min_eq_right h, List.drop_length, List.take_of_length_le h,
      List.append_nil]

/-- `next_token` reports exhaustion only on empty input. -/
theorem next_token_exhausted (input : List Char)
    (h : next_token input = .exhausted) : input = [] := by
  cases input with
  | nil => rfl
  | cons first cs =>
    simp only [next_token] at h
    split at h
    · cases h
    · cases h

/-- The text of a produced token is a prefix of the input. -/
theorem next_token_text (input : List Char) (t : LexerToken)
    (h : next_token input = .tok t) : ∃ n, t.text = List.take n input := by
  cases input with
  | nil => cases h
  | cons first cs =>
    simp only [next_token] at h
    split at h
    · cases h
    · cases h
      exact ⟨_, rfl⟩

/-- Losslessness of the fueled lexer loop: a completed scan concatenates
back to the input. -/
theorem lex_fuel_concat :
    ∀ (fuel : Nat) (input : List Char) (toks : List LexerToken),
      lex_fuel fuel input = some toks → texts_concat toks = input := by
  intro fuel
  induction fuel with
  | zero => intro input toks h; cases h
  | succ n ih =>
    intro input toks h
    simp only [lex_fuel] at h
    cases hnt : next_token input with
    | exhausted =>
      rw [hnt] at h
      cases h
      rw [next_token_exhausted input hnt]
      rfl
    | panic => rw [hnt] at h; cases h
    | tok t =>
      rw [hnt] at h
      dsimp only at h
      cases hrec : lex_fuel n (List.drop t.text.length input) with
      | none => rw [hrec] at h; cases h
      | some toks2 =>
        rw [hrec] at h
        cases h
        obtain ⟨m, hm⟩ := next_token_text input t hnt
        have htail := ih (List.drop t.text.length input) toks2 hrec
        show t.text ++ texts_concat toks2 = input
        rw [htail, hm]
        exact take_concat_drop_length input m

/-- When the double-quoted-string scan reports `TokenError` it has
consumed the entire remaining input. -/
theorem end_dq_err_rest :
    ∀ cs : List Char, (end_dq_string cs).1 = .TokenError →
      (end_dq_string cs).2 = [] := by
  intro cs
  induction cs using end_dq_string.induct with
  | case1 => intro; rfl
  | case2 rest => intro h; cases h
  | case3 => intro; rfl
  | case4 c rest ih => exact ih
  | case5 head rest h1 h2 ih =>
    have hred : end_dq_string (head :: rest) = end_dq_string rest := by
      conv_lhs => rw [end_dq_string.eq_def]
      split
      all_goals try (rename_i heq; cases heq)
      all_goals first
        | rfl
        | exact absurd rfl h1
        | exact absurd rfl h2
    rw [hred]
    exact ih

/-- The paren-descent loop equals descending into the first child node. -/
theorem trimParenFirst_eq (ch : List SElem) :
    trimParenFirst ch =
      match firstChildNode ch with
      | none => none
      | some inner => trimParen inner := by
  induction ch with
  | nil => rfl
  | cons c rest ih =>
    cases c with
    | node k ch2 => rfl
    | token k t => simpa [trimParenFirst, firstChildNode] using ih

/-- `find_prefix_op` only returns tokens whose kind `is_prefix_op`. -/
theorem findPrefixOpTok_spec :
    ∀ (ch : List SElem) (k : SyntaxKind) (t : List Char),
      findPrefixOpTok ch = some (k, t) → k.is_prefix_op = true := by
  intro ch
  induction ch with
  | nil => intro k t h; cases h
  | cons c rest ih =>
    intro k t h
    cases c with
    | token k2 t2 =>
      simp only [findPrefixOpTok] at h
      by_cases hk : k2.is_prefix_op
      · rw [if_pos hk] at h
        cases h
        exact hk
      · rw [if_neg hk] at h
        exact ih k t h
    | node k2 ch2 => exact ih k t h

/-- `find_postfix_op` only returns tokens whose kind
`is_postfix_update_op`. -/
theorem findPostfixOpTok_spec :
    ∀ (ch : List SElem) (k : SyntaxKind) (t : List Char),
      findPostfixOpTok ch = some (k, t) → k.is_postfix_update_op = true := by
  intro ch
  induction ch with
  | nil => intro k t h; cases h
  | cons c rest ih =>
    intro k t h
    cases c with
    | token k2 t2 =>
      simp only [findPostfixOpTok] at h
      by_cases hk : k2.is_postfix_update_op
      · rw [if_pos hk] at h
        cases h
        exact hk
      · rw [if_neg hk] at h
        exact ih k t h
    | node k2 ch2 => exact ih k t h

/-- A well-formed expression trims to a well-formed non-paren
expression. -/
theorem wf_trim (e : SElem) (hwf : WFExpr e) :
    ∃ inner, trimParen e = some inner ∧ WFExpr inner ∧
      inner.kindOf ≠ SyntaxKind.NodeParenExpr := by
  induction hwf with
  | boolLit ch => exact ⟨_, rfl, WFExpr.boolLit ch, by simp [SElem.kindOf]⟩
  | numLit ch => exact ⟨_, rfl, WFExpr.numLit ch, by simp [SElem.kindOf]⟩
  | arrayLit ch => exact ⟨_, rfl, WFExpr.arrayLit ch, by simp [SElem.kindOf]⟩
  | objectLit ch => exact ⟨_, rfl, WFExpr.objectLit ch, by simp [SElem.kindOf]⟩
  | strLit ch => exact ⟨_, rfl, WFExpr.strLit ch, by simp [SElem.kindOf]⟩
  | ident ch => exact ⟨_, rfl, WFExpr.ident ch, by simp [SElem.kindOf]⟩
  | seq ch => exact ⟨_, rfl, WFExpr.seq ch, by simp [SElem.kindOf]⟩
  | assign ch => exact ⟨_, rfl, WFExpr.assign ch, by simp [SElem.kindOf]⟩
  | call ch => exact ⟨_, rfl, WFExpr.call ch, by simp [SElem.kindOf]⟩
  | infixE ch k t hfind hk =>
    exact ⟨_, rfl, WFExpr.infixE ch k t hfind hk, by simp [SElem.kindOf]⟩
  | prefixE ch k t hfind =>
    exact ⟨_, rfl, WFExpr.prefixE ch k t hfind, by simp [SElem.kindOf]⟩
  | postfixE ch k t hfind =>
    exact ⟨_, rfl, WFExpr.postfixE ch k t hfind, by simp [SElem.kindOf]⟩
  | paren ch inner hfirst hinner ih =>
    obtain ⟨inner2, h1, h2, h3⟩ := ih
    refine ⟨inner2, ?_, h2, h3⟩
    show trimParenFirst ch = some inner2
    rw [trimParenFirst_eq, hfirst]
    exact h1

/-! ## Claim theorems -/

/-- C1 (amended): whenever the lexer completes a scan without hitting an
unimplemented path, the concatenation of the text of every token it
produced, in order, equals the input exactly. -/
theorem c1_tokenization_lossless (input : List Char) (toks : List LexerToken)
    (h : lex input = some toks) : texts_concat toks = input :=
  lex_fuel_concat (input.length + 1) input toks h

/-- C1 witness: the amended losslessness theorem applied to the
concrete input `this`. -/
theorem c1_tokenization_lossless_witness :
    texts_concat [⟨SyntaxKind.TokenThis, ['t', 'h', 'i', 's']⟩]
      = ['t', 'h', 'i', 's'] :=
  c1_tokenization_lossless ['t', 'h', 'i', 's']
    [⟨SyntaxKind.TokenThis, ['t', 'h', 'i', 's']⟩] (by decide)

/-- C1 counterexample: on the input `+` the lexer panics
(`unimplemented!`), so no token sequence is produced at all — the
claim's universal quantification over every input string fails. -/
theorem c1_counterexample : lex ['+'] = none := by decide

/-- C2: on a `NodeInfixExpr`, casting selects the first `is_infix_op`
token occurring after at least one child node (an operator token before
any child node is skipped); `&&` yields the Logical variant and `+` the
Bin variant with op `Add`, and parenthesizing either operand changes
nothing — but the code maps the `&&` operator to `LogicalOp::Or`, not
`And` (the match arms in `LogicalExpr::op` are swapped). -/
theorem c2_infix_ambiguity_resolution :
    exprCast cstInfixAnd = some (.logical cstInfixAnd) ∧
    logicalExprOp cstInfixAnd = some LogicalOp.or ∧
    (LogicalOp.or == LogicalOp.and) = false ∧
    exprCast cstInfixPlus = some (.bin cstInfixPlus) ∧
    binExprOp cstInfixPlus = some BinOp.add ∧
    exprCast cstInfixAndPL = some (.logical cstInfixAndPL) ∧
    logicalExprOp cstInfixAndPL = some LogicalOp.or ∧
    exprCast cstInfixAndPR = some (.logical cstInfixAndPR) ∧
    logicalExprOp cstInfixAndPR = some LogicalOp.or ∧
    exprCast cstInfixPlusPL = some (.bin cstInfixPlusPL) ∧
    binExprOp cstInfixPlusPL = some BinOp.add ∧
    exprCast cstInfixPlusPR = some (.bin cstInfixPlusPR) ∧
    binExprOp cstInfixPlusPR = some BinOp.add ∧
    exprCast cstInfixOpFirst = some (.bin cstInfixOpFirst) ∧
    binExprOp cstInfixOpFirst = some BinOp.add :=
  ⟨rfl, rfl, rfl, rfl, rfl, rfl, rfl, rfl, rfl, rfl, rfl, rfl, rfl, rfl, rfl⟩

/-- C3 counterexample: `NodeArrayLit` satisfies `is_expr`, and a
well-formed array-literal node still casts to the `Error` arm — the
`Error` arm is reached merely because of the kind. -/
theorem c3_counterexample :
    SyntaxKind.is_expr .NodeArrayLit = true ∧
    WFExpr cstArrayLit ∧
    exprCast cstArrayLit = some (.error cstArrayLit) :=
  ⟨rfl, WFExpr.arrayLit _, rfl⟩

/-- C3 (amended): for every well-formed expression node whose
paren-trimmed kind is not `NodeArrayLit` or `NodeObjectLit`, `Expr::cast`
succeeds without panicking and returns a non-`Error` arm; the two
excepted kinds satisfy `is_expr` but always fall to the `Error` arm. -/
theorem c3_cast_totality (e inner : SElem) (hwf : WFExpr e)
    (htrim : trimParen e = some inner)
    (harr : inner.kindOf ≠ SyntaxKind.NodeArrayLit)
    (hobj : inner.kindOf ≠ SyntaxKind.NodeObjectLit) :
    castsToNonError e = true := by
  obtain ⟨inner2, h1, h2, h3⟩ := wf_trim e hwf
  rw [htrim] at h1
  cases h1
  unfold castsToNonError exprCast
  rw [htrim]
  cases h2 with
  | boolLit ch => rfl
  | numLit ch => rfl
  | arrayLit ch => exact absurd rfl harr
  | objectLit ch => exact absurd rfl hobj
  | strLit ch => rfl
  | ident ch => rfl
  | seq ch => rfl
  | assign ch => rfl
  | call ch => rfl
  | infixE ch k t hfind hk =>
    show (match
        match findInfixOp false ch with
        | none => none
        | some (k, _) =>
          if k.is_logical_op then some (ExprCastC.logical e)
          else if k.is_bin_op then some (ExprCastC.bin e)
          else none with
      | some c => !(c.arm == ExprArm.error)
      | none => false) = true
    rw [hfind]
    dsimp only
    rcases Bool.or_eq_true_iff.mp hk with hl | hb
    · rw [if_pos hl]; rfl
    · by_cases hl : k.is_logical_op
      · rw [if_pos hl]; rfl
      · rw [if_neg (by simpa using hl), if_pos hb]; rfl
  | prefixE ch k t hfind =>
    show (match
        match findPrefixOpTok ch with
        | none => none
        | some (k, _) =>
          if k.is_unary_op then some (ExprCastC.unary e)
          else if k.is_prefix_update_op then some (ExprCastC.update e)
          else none with
      | some c => !(c.arm == ExprArm.error)
      | none => false) = true
    rw [hfind]
    dsimp only
    have hp := findPrefixOpTok_spec ch k t hfind
    rcases Bool.or_eq_true_iff.mp hp with hu | hupd
    · rw [if_pos hu]; rfl
    · by_cases hu : k.is_unary_op
      · rw [if_pos hu]; rfl
      · rw [if_neg (by simpa using hu), if_pos hupd]; rfl
  | postfixE ch k t hfind =>
    show (match
        match findPostfixOpTok ch with
        | none => none
        | some (k, _) =>
          if k.is_postfix_update_op then some (ExprCastC.update e)
          else none with
      | some c => !(c.arm == ExprArm.error)
      | none => false) = true
    rw [hfind]
    dsimp only
    rw [if_pos (findPostfixOpTok_spec ch k t hfind)]
    rfl
  | paren ch inner3 hfirst hinner => exact absurd rfl h3

/-- C3 witness: the amended cast-totality theorem applied to a concrete
well-formed boolean literal node. -/
theorem c3_cast_totality_witness : castsToNonError cstBoolLit = true :=
  c3_cast_totality cstBoolLit cstBoolLit (WFExpr.boolLit _) rfl
    (by decide) (by decide)

/-- C4 counterexample: on the input `@` — a leading character matching
no token rule — the tokenizer panics (`unimplemented!`) instead of
emitting a `TokenError` token. -/
theorem c4_counterexample : next_token ['@'] = LexStep.panic := by decide

/-- C4 (amended): a double-quoted string literal with no closing quote
before end of input is emitted as a single `TokenError` token covering
the rest of the input, after which the scan completes; but a leading
character matching no token rule makes the tokenizer panic
(`unimplemented!`) rather than emit `TokenError`. -/
theorem c4_lexical_failure (cs : List Char)
    (h : (end_dq_string cs).1 = SyntaxKind.TokenError) :
    lex ('"' :: cs) = some [⟨SyntaxKind.TokenError, '"' :: cs⟩] := by
  have hrest : (end_dq_string cs).2 = [] := end_dq_err_rest cs h
  have hnt : next_token ('"' :: cs) = .tok ⟨SyntaxKind.TokenError, '"' :: cs⟩ := by
    cases hdq : end_dq_string cs with
    | mk k r =>
      rw [hdq] at h hrest
      dsimp only at h hrest
      subst h
      subst hrest
      simp [next_token, is_id_start, is_whitespace, hdq]
  show lex_fuel (('"' :: cs).length + 1) ('"' :: cs) = _
  rw [List.length_cons]
  show lex_fuel (cs.length + 1 + 1) ('"' :: cs) = _
  rw [lex_fuel, hnt]
  dsimp only
  rw [List.drop_length]
  rw [lex_fuel]
  rfl

/-- C4 witness: the amended theorem applied to the concrete unterminated
literal `"abc`. -/
theorem c4_lexical_failure_witness :
    lex ['"', 'a', 'b', 'c'] = some [⟨SyntaxKind.TokenError, ['"', 'a', 'b', 'c']⟩] :=
  c4_lexical_failure ['a', 'b', 'c'] (by decide)

/-- C7: serializing an owned `BreakStmt` produces exactly the record
with the single field `type: BreakStmt`; but serializing an owned
`Script` of two break statements produces a record whose top-level
fields are `type: Script` followed by `body` — not the `body`-only
record the repository's own `test_serialize` expects. -/
theorem c7_serialization_wire_contract :
    serializeOwnedStmt OwnedStmt.breakStmt
      = some (Json.obj [("type", Json.str "BreakStmt")]) ∧
    serializeOwnedScript ⟨[OwnedStmt.breakStmt, OwnedStmt.breakStmt]⟩
      = some (Json.obj [("type", Json.str "Script"),
          ("body", Json.arr
            [Json.obj [("type", Json.str "BreakStmt")],
             Json.obj [("type", Json.str "BreakStmt")]])]) ∧
    Option.map Json.fieldNames
        (serializeOwnedScript ⟨[OwnedStmt.breakStmt, OwnedStmt.breakStmt]⟩)
      = some ["type", "body"] ∧
    (["type", "body"] == ["body"] : Bool) = false :=
  ⟨rfl, rfl, rfl, by decide⟩

/-- C8: on the input `a\r\nb` the tokenizer panics (`unimplemented!`:
only identifiers starting with `t` are handled), producing no tokens at
all; where the whitespace rule is reachable (`tt\r\ntt`), the interior
CRLF is one `TokenMultilineWhitespace` token with text `\r\n`, not two
trivia tokens. -/
theorem c8_line_terminator_normalization :
    lex ['a', '\r', '\n', 'b'] = none ∧
    lex ['t', 't', '\r', '\n', 't', 't'] = some
      [⟨SyntaxKind.TokenIdent, ['t', 't']⟩,
       ⟨SyntaxKind.TokenMultilineWhitespace, ['\r', '\n']⟩,
       ⟨SyntaxKind.TokenIdent, ['t', 't']⟩] :=
  ⟨by decide, by decide⟩

/-- C9: decoding a `u16` into a `SyntaxKind` succeeds exactly on
`[0, VARIANT_COUNT)` with `VARIANT_COUNT = 79`, fails on every larger
value, and decoding `into_u16 k` returns `k` itself. -/
theorem c9_syntax_kind_decoding :
    SyntaxKind.VARIANT_COUNT = 79 ∧
    (∀ v : Nat, v < SyntaxKind.VARIANT_COUNT →
      (SyntaxKind.from_u16 v).isSome = true) ∧
    (∀ v : Nat, SyntaxKind.VARIANT_COUNT ≤ v →
      SyntaxKind.from_u16 v = none) ∧
    (∀ k : SyntaxKind, SyntaxKind.from_u16 k.into_u16 = some k) := by
  refine ⟨rfl, ?_, ?_, ?_⟩
  · intro v hv
    rw [SyntaxKind.from_u16, if_pos hv]
    cases hg : List.get? SyntaxKind.all v with
    | none =>
      have hlen := List.get?_eq_none.mp hg
      have hlen79 : SyntaxKind.all.length = 79 := rfl
      have hvc : SyntaxKind.VARIANT_COUNT = 79 := rfl
      rw [hvc] at hv
      rw [hlen79] at hlen
      omega
    | some k => rfl
  · intro v hv
    rw [SyntaxKind.from_u16, if_neg (by omega)]
  · intro k
    cases k <;> rfl

/-- C9 witness: decoding bounds and the roundtrip at concrete values. -/
theorem c9_syntax_kind_decoding_witness :
    SyntaxKind.from_u16 100 = none ∧
    SyntaxKind.from_u16 (SyntaxKind.into_u16 .NodeScript) = some .NodeScript :=
  ⟨c9_syntax_kind_decoding.2.2.1 100 (by decide),
   c9_syntax_kind_decoding.2.2.2 .NodeScript⟩

/-- C10: on the CST backend, `Script::stmts` yields exactly the direct
child nodes whose kind satisfies `is_stmt` — only `NodeExprStmt` and
`NodeVarStmt` — in source order; children of any other kind, including
`NodeBreakStmt`, are silently skipped, and `Stmt::cast` never returns
the Break or Trace arms. -/
theorem c10_script_stmts_filter :
    (∀ k : SyntaxKind,
      k.is_stmt = ((k == SyntaxKind.NodeExprStmt) || (k == SyntaxKind.NodeVarStmt))) ∧
    (∀ e : SElem,
      scriptStmts e = e.childNodes.filter (fun c => c.kindOf.is_stmt)) ∧
    (∀ s : SElem, (stmtCast s).isBreakOrTrace = false) ∧
    scriptStmts cstScriptSample =
      [.node .NodeExprStmt [cstIdentA, .token .TokenSemicolon [';']],
       .node .NodeVarStmt [.node .NodeVarDecl [cstIdentB]]] := by
  refine ⟨?_, ?_, ?_, rfl⟩
  · intro k
    cases k <;> rfl
  · intro e
    show scriptStmtsLoop e.childNodes = _
    induction e.childNodes with
    | nil => rfl
    | cons c rest ih =>
      cases hc : c.kindOf.is_stmt <;>
        simp [scriptStmtsLoop, stmtTryFrom, hc, List.filter_cons, ih]
  · intro s
    unfold stmtCast
    split <;> rfl

/-- C5: keyword/identifier longest match — `this` lexes to one
`TokenThis`, `thisx` to one `TokenIdent` with text `thisx`, `try` to one
`TokenTry`, `tryer` to one `TokenIdent`; in general each implemented
reserved word (`this`, `throw`, `true`, `try`) is recognized as a
keyword exactly when not immediately followed by an identifier-continue
character. -/
theorem c5_keyword_longest_match :
    lex ['t', 'h', 'i', 's']
      = some [⟨SyntaxKind.TokenThis, ['t', 'h', 'i', 's']⟩] ∧
    lex ['t', 'h', 'i', 's', 'x']
      = some [⟨SyntaxKind.TokenIdent, ['t', 'h', 'i', 's', 'x']⟩] ∧
    lex ['t', 'r', 'y'] = some [⟨SyntaxKind.TokenTry, ['t', 'r', 'y']⟩] ∧
    lex ['t', 'r', 'y', 'e', 'r']
      = some [⟨SyntaxKind.TokenIdent, ['t', 'r', 'y', 'e', 'r']⟩] ∧
    (∀ (c : Char) (cs : List Char), is_id_continue c = true →
      (next_token ('t' :: 'h' :: 'i' :: 's' :: c :: cs)).tokKind
          = some SyntaxKind.TokenIdent ∧
      (next_token ('t' :: 'h' :: 'r' :: 'o' :: 'w' :: c :: cs)).tokKind
          = some SyntaxKind.TokenIdent ∧
      (next_token ('t' :: 'r' :: 'u' :: 'e' :: c :: cs)).tokKind
          = some SyntaxKind.TokenIdent ∧
      (next_token ('t' :: 'r' :: 'y' :: c :: cs)).tokKind
          = some SyntaxKind.TokenIdent) ∧
    (∀ (c : Char) (cs : List Char), is_id_continue c = false →
      next_token ('t' :: 'h' :: 'i' :: 's' :: c :: cs)
          = .tok ⟨SyntaxKind.TokenThis, ['t', 'h', 'i', 's']⟩ ∧
      next_token ('t' :: 'h' :: 'r' :: 'o' :: 'w' :: c :: cs)
          = .tok ⟨SyntaxKind.TokenThrow, ['t', 'h', 'r', 'o', 'w']⟩ ∧
      next_token ('t' :: 'r' :: 'u' :: 'e' :: c :: cs)
          = .tok ⟨SyntaxKind.TokenTrue, ['t', 'r', 'u', 'e']⟩ ∧
      next_token ('t' :: 'r' :: 'y' :: c :: cs)
          = .tok ⟨SyntaxKind.TokenTry, ['t', 'r', 'y']⟩) := by
  refine ⟨by decide, by decide, by decide, by decide, ?_, ?_⟩
  · intro c cs h
    refine ⟨?_, ?_, ?_, ?_⟩ <;>
      simp [next_token, end_id_or_keyword, h, LexStep.tokKind,
        show is_id_start 't' = true from rfl]
  · intro c cs h
    refine ⟨?_, ?_, ?_, ?_⟩ <;>
      simp [next_token, end_id_or_keyword, h,
        show is_id_start 't' = true from rfl]

/-- C5 witness: the general longest-match clauses applied to the
concrete follower characters `9` (identifier-continue) and `+` (not). -/
theorem c5_keyword_longest_match_witness :
    (next_token ['t', 'h', 'i', 's', '9']).tokKind = some SyntaxKind.TokenIdent ∧
    next_token ['t', 'r', 'y', '+'] = .tok ⟨SyntaxKind.TokenTry, ['t', 'r', 'y']⟩ :=
  ⟨(c5_keyword_longest_match.2.2.2.2.1 '9' [] (by decide)).1,
   (c5_keyword_longest_match.2.2.2.2.2 '+' [] (by decide)).2.2.2⟩

/-- C6: unescaping the double-quoted token whose content is
`a`-backslash-`n`-`b` yields `a`, newline, `b`; unescaping the
single-quoted literal containing backslash-quote yields one single
quote; a bare unescaped `"` inside a double-quoted literal is a
per-character `EscapeOnlyChar` error; and whenever any character of the
walk reports an error the overall unescape yields no string. -/
theorem c6_unescape_correctness :
    unescapeString ['"', 'a', '\\', 'n', 'b', '"']
      = some (some ['a', '\n', 'b']) ∧
    unescapeString ['\'', '\\', '\'', '\''] = some (some ['\'']) ∧
    unescapeWalk QuoteKind.double ['a', '"', 'b']
      = [.ok 'a', .err .escapeOnlyChar, .ok 'b'] ∧
    unescapeString ['"', 'a', '"', 'b', '"'] = some none ∧
    (∀ (quoted : List Char) (quotes : QuoteKind) (content : List Char),
      findQuotedContent quoted = some (quotes, content) →
      (unescapeWalk quotes content).any UnescapeCharResult.isErr = true →
      yieldsString (unescapeString quoted) = false) := by
  refine ⟨by decide, by decide, by decide, by decide, ?_⟩
  intro quoted quotes content h1 h2
  simp only [unescapeString, h1]
  by_cases hp : (unescapeWalk quotes content).any UnescapeCharResult.isPanic
  · simp [hp, yieldsString]
  · simp [hp, h2, yieldsString]

/-- C6 witness: the all-or-nothing clause applied to the concrete
double-quoted literal containing a bare `"`. -/
theorem c6_unescape_correctness_witness :
    yieldsString (unescapeString ['"', 'a', '"', 'b', '"']) = false :=
  c6_unescape_correctness.2.2.2.2 ['"', 'a', '"', 'b', '"'] QuoteKind.double
    ['a', '"', 'b'] (by decide) (by decide)

end As2
